import Mathlib

/-
  Shallow embedding of the recipe-extraction core of mykitchen (src/app.py):
  the text normalizer (decimal_to_fraction, clean_ingredient, split_embedded_steps),
  the structured-data extractor (extract_schema_recipe), the two heuristic
  extractors (extract_weekendbakery_recipe, extract_generic_recipe) and the
  orchestrator (fetch_recipe), together with theorems settling the frozen
  claims about them.
-/

set_option maxRecDepth 100000

namespace MyKitchen

/-- Python regex \d character class (ASCII digits, the only ones the source regexes meet). -/
def isDig (c : Char) : Bool := c.isDigit

/-- Python regex \s and str.strip whitespace class (ASCII part). -/
def isSpc (c : Char) : Bool :=
  c = ' ' || c = '\t' || c = '\n' || c = '\r' || c = '\x0b' || c = '\x0c'

/-- Python regex \w word-character class (ASCII part). -/
def isWord (c : Char) : Bool := c.isAlphanum || c = '_'

/-- Python str.strip() on a character list. -/
def pyStripL (cs : List Char) : List Char :=
  ((cs.dropWhile isSpc).reverse.dropWhile isSpc).reverse

/-- Python str.strip(). -/
def pyStrip (s : String) : String := String.mk (pyStripL s.data)

/-- Numeric value of a run of ASCII digits. -/
def digitsVal (ds : List Char) : ℕ :=
  ds.foldl (fun a c => 10 * a + (c.toNat - '0'.toNat)) 0

/-
  Rational helpers.  Exact rational arithmetic written through mkRat and the
  num/den projections so that every definition evaluates inside the kernel
  (the Batteries arithmetic on ℚ is marked irreducible); lemmas below identify
  them with the ordinary Mathlib operations for use in proofs.
-/

/-- |a| on ℚ, computably. -/
def qAbs (a : ℚ) : ℚ := if a.num < 0 then mkRat (-a.num) a.den else a

/-- a - b on ℚ, computably. -/
def qSub (a b : ℚ) : ℚ := mkRat (a.num * b.den - b.num * a.den) (a.den * b.den)

/-- a * n on ℚ for a natural n, computably. -/
def qMulNat (a : ℚ) (n : ℕ) : ℚ := mkRat (a.num * n) a.den

/-- ⌊a⌋ on ℚ, computably. -/
def qFloor (a : ℚ) : ℤ := Int.fdiv a.num a.den

/-- Model of Python float() restricted to the decimal shapes the source feeds it:
digits optionally followed by a dot and digits ("12", "12.", "12.5", ".5"),
parsed exactly into ℚ.  IEEE double rounding is not modelled: the tolerance
comparisons in decimal_to_fraction are many orders of magnitude wider than the
rounding error on the inputs the claims quantify over.  Strings outside this
shape return none, which the caller treats as the conversion-failure branch
(float() raising ValueError). -/
def pyFloat? (s : String) : Option ℚ :=
  let (d1, r1) := s.data.span isDig
  match r1 with
  | [] => if d1 = [] then none else some (mkRat (digitsVal d1) 1)
  | '.' :: r2 =>
    let (d2, r3) := r2.span isDig
    if r3 = [] then
      if d1 = [] && d2 = [] then none
      else some (mkRat (digitsVal d1 * 10 ^ d2.length + digitsVal d2) (10 ^ d2.length))
    else none
  | _ => none

/-- The common_fractions dict of decimal_to_fraction, in insertion order
(Python dicts iterate in insertion order).  The keys are the source's decimal
literals, exactly: 0.333 and 0.666/0.667 are the dict's approximations of the
thirds, not 1/3 and 2/3 themselves. -/
def common_fractions : List (ℚ × String) :=
  [(mkRat 1 8, "1/8"), (mkRat 1 4, "1/4"), (mkRat 333 1000, "1/3"), (mkRat 3 8, "3/8"),
   (mkRat 1 2, "1/2"), (mkRat 5 8, "5/8"), (mkRat 333 500, "2/3"), (mkRat 667 1000, "2/3"),
   (mkRat 3 4, "3/4"), (mkRat 7 8, "7/8")]

/-- Modelled from the spec: the tabulated cooking fractions of the claim —
1/8, 1/4, 1/3, 3/8, 1/2, 5/8, 2/3, 3/4, 7/8 — as exact rationals, with the
strings decimal_to_fraction renders them as.  Used only to state the claim;
note the code's dict keys approximate the thirds by 0.333 and 0.666/0.667. -/
def tabulatedFractions : List (ℚ × String) :=
  [(mkRat 1 8, "1/8"), (mkRat 1 4, "1/4"), (mkRat 1 3, "1/3"), (mkRat 3 8, "3/8"),
   (mkRat 1 2, "1/2"), (mkRat 5 8, "5/8"), (mkRat 2 3, "2/3"), (mkRat 3 4, "3/4"),
   (mkRat 7 8, "7/8")]

/-- The first-match scan over common_fractions: the for-loop returning the first
entry whose key is within the 0.02 tolerance of the fractional part. -/
def scanCF : List (ℚ × String) → ℚ → Option String
  | [], _ => none
  | (k, f) :: rest, fp => if qAbs (qSub fp k) < mkRat 1 50 then some f else scanCF rest fp

/-- Model of fractions.Fraction.limit_denominator(8): the closest fraction to q
with denominator at most 8, its documented behaviour.  Candidates are the floor
and ceiling multiples over each denominator 1..8; the fold keeps the earlier
candidate on an exact distance tie.  CPython resolves an exact tie between its
two continued-fraction bounds by a rule not modelled here; no theorem in this
file evaluates this function at a tie. -/
def limit_denominator8 (q : ℚ) : ℚ :=
  if q.den ≤ 8 then q
  else
    let c : ℕ → List ℚ := fun n => [mkRat (qFloor (qMulNat q n)) n, mkRat (qFloor (qMulNat q n) + 1) n]
    let cands := c 1 ++ c 2 ++ c 3 ++ c 4 ++ c 5 ++ c 6 ++ c 7 ++ c 8
    cands.foldl (fun b x => if qAbs (qSub q x) < qAbs (qSub q b) then x else b) (mkRat (qFloor q) 1)

/-- str() of an integer. -/
def intStr (z : ℤ) : String := toString z

/-- int(num): truncation toward zero. -/
def pyIntPart (q : ℚ) : ℤ := Int.tdiv q.num q.den

/-- num - int(num): the fractional part against the truncated whole part. -/
def fracPart (q : ℚ) : ℚ := qSub q (mkRat (pyIntPart q) 1)

/-- decimal_to_fraction on the parsed numeric value (src/app.py lines 126-172),
the Python float modelled as an exact rational.  num == int(num) is the
denominator-1 test; int() truncates toward zero (Int.tdiv); Python // and % on
the positive operands of the mixed-number branch are Int.fdiv and Int.fmod. -/
def decimal_to_fraction_val (num : ℚ) : String :=
  if num.den = 1 then intStr num.num
  else
    let whole_part : ℤ := pyIntPart num
    let frac_part : ℚ := fracPart num
    match scanCF common_fractions frac_part with
    | some fraction =>
      if whole_part > 0 then intStr whole_part ++ " " ++ fraction else fraction
    | none =>
      let frac := limit_denominator8 num
      if frac.den = 1 then intStr frac.num
      else if frac.num > (frac.den : ℤ) then
        let whole := Int.fdiv frac.num frac.den
        let remainder := Int.fmod frac.num frac.den
        if remainder = 0 then intStr whole
        else intStr whole ++ " " ++ intStr remainder ++ "/" ++ intStr (frac.den : ℤ)
      else intStr frac.num ++ "/" ++ intStr (frac.den : ℤ)

/-- decimal_to_fraction on a string: parse as float, convert; on parse failure
return the input unchanged (the bare except branch). -/
def decimal_to_fraction (decimal_str : String) : String :=
  match pyFloat? decimal_str with
  | none => decimal_str
  | some num => decimal_to_fraction_val num

/-- Match of the decimal pattern (\d*\.\d+) anchored at the head of cs: maximal
leading digit run, a dot, then a nonempty maximal digit run (greedy, as re
matches it).  Returns the matched text and the remaining suffix. -/
def decMatchAt (cs : List Char) : Option (List Char × List Char) :=
  let (d1, r1) := cs.span isDig
  match r1 with
  | '.' :: r2 =>
    let (d2, r3) := r2.span isDig
    if d2 = [] then none else some (d1 ++ '.' :: d2, r3)
  | _ => none

/-- The left-to-right scan of re.sub(r'(\d*\.\d+)', replace_decimal, s): at each
position try the decimal pattern; on a match emit decimal_to_fraction of the
matched text and resume after it, otherwise keep the character and advance one.
Fueled to keep the recursion structural; fuel = length never runs out because a
match consumes at least two characters. -/
def subDec : ℕ → List Char → List Char
  | 0, cs => cs
  | _ + 1, [] => []
  | fuel + 1, c :: cs =>
    match decMatchAt (c :: cs) with
    | some (m, rest) => (decimal_to_fraction (String.mk m)).data ++ subDec fuel rest
    | none => c :: subDec fuel cs

/-- clean_ingredient: substitute every decimal substring by its fraction form. -/
def clean_ingredient (ingredient : String) : String :=
  String.mk (subDec ingredient.data.length ingredient.data)

/-- clean_ingredients: clean every ingredient in a list. -/
def clean_ingredients (ingredients : List String) : List String :=
  ingredients.map clean_ingredient

/-- Whether some suffix of cs starts with a decimal-pattern match. -/
def hasDecMatch : List Char → Bool
  | [] => false
  | c :: cs => (decMatchAt (c :: cs)).isSome || hasDecMatch cs

/-
  split_embedded_steps (src/app.py lines 188-213) and its regexes.
-/

/-- The lookahead marker (?=\d+\.\s+): a nonempty digit run, a period, then at
least one whitespace character, starting at the head of cs. -/
def numDotSpaceHere (cs : List Char) : Bool :=
  match cs.span isDig with
  | (_ :: _, '.' :: c :: _) => isSpc c
  | _ => false

/-- Inside the .+ of the embedded-numbering search: consume at least one
non-newline character, then meet \d+\.\s+ . -/
def seekSecond : List Char → Bool
  | [] => false
  | c :: cs => c ≠ '\n' && (numDotSpaceHere cs || seekSecond cs)

/-- Having consumed at least one \s after the period: either the .+ begins
here, or a further whitespace character is consumed by the \s+. -/
def afterSpc : List Char → Bool
  | [] => false
  | c :: cs => seekSecond (c :: cs) || (isSpc c && afterSpc cs)

/-- re.search(r'\d+\.\s+.+\d+\.\s+', step) anchored at the head: a digit run, a
period, at least one whitespace, then at least one non-newline character
followed by a second digits-period-whitespace group. -/
def embHere (cs : List Char) : Bool :=
  match cs.span isDig with
  | (_ :: _, '.' :: c :: cs2) => isSpc c && afterSpc cs2
  | _ => false

/-- re.search(r'\d+\.\s+.+\d+\.\s+', step): some position matches embHere. -/
def hasEmbedded : List Char → Bool
  | [] => false
  | c :: cs => embHere (c :: cs) || hasEmbedded cs

/-- re.split on a zero-width lookahead pattern, Python 3.7+ semantics: the
string is cut immediately before every position at which the lookahead
matches; a match at position 0 contributes a leading empty piece, and matches
at consecutive positions each cut. -/
def splitLookaheadGo (marker : List Char → Bool) : List Char → List Char → List (List Char)
  | acc, [] => [acc.reverse]
  | acc, c :: cs =>
    if marker (c :: cs) then acc.reverse :: splitLookaheadGo marker [c] cs
    else splitLookaheadGo marker (c :: acc) cs

/-- re.split(lookahead pattern, s). -/
def splitLookahead (marker : List Char → Bool) (cs : List Char) : List (List Char) :=
  splitLookaheadGo marker [] cs

/-- re.sub(r'^\d+\.\s*', '', part): drop a leading digit run, period and any
following whitespace; anything else passes unchanged. -/
def stripLeadNum (cs : List Char) : List Char :=
  match cs.span isDig with
  | (_ :: _, '.' :: r2) => r2.dropWhile isSpc
  | _ => cs

/-- The per-line body of split_embedded_steps: a line with embedded numbering
is split before every lookahead match and each piece is stripped, de-numbered,
re-stripped and kept when nonempty; a plain line only gets the leading-numeral
strip. -/
def processStep (step : String) : List String :=
  if hasEmbedded step.data then
    (splitLookahead numDotSpaceHere step.data).foldr (fun part acc =>
      let p := pyStripL part
      if p = [] then acc
      else
        let cp := pyStripL (stripLeadNum p)
        if cp = [] then acc else String.mk cp :: acc) []
  else
    let cs := pyStripL (stripLeadNum step.data)
    if cs = [] then [] else [String.mk cs]

/-- split_embedded_steps: process every line, fall back to the original list
when nothing usable survived. -/
def split_embedded_steps (instructions : List String) : List String :=
  if instructions = [] then instructions
  else
    let cleaned_steps := instructions.flatMap processStep
    if cleaned_steps = [] then instructions else cleaned_steps

/-- Whether the character before the current position permits a marker start
under the spec's reading (markers begin at maximal digit runs): true at the
start of the line and after a non-digit. -/
def prevOkB : Option Char → Bool
  | none => true
  | some c => !isDig c

/-- Modelled from the spec: cut immediately before each digits-period-
whitespace marker, a marker being read only at the start of a maximal digit
run (not inside a multi-digit numeral). -/
def specSplitGo : Option Char → List Char → List Char → List (List Char)
  | _, acc, [] => [acc.reverse]
  | prev, acc, c :: cs =>
    if numDotSpaceHere (c :: cs) && prevOkB prev then
      acc.reverse :: specSplitGo (some c) [c] cs
    else specSplitGo (some c) (c :: acc) cs

/-- The spec-side split of one line. -/
def specSplit (cs : List Char) : List (List Char) := specSplitGo none [] cs

/-- Modelled from the spec: "split immediately before each digits-period
marker, strip the leading numeral/period from each resulting segment, and emit
each non-empty segment as its own step", with the same embedded-numbering
guard and whitespace stripping as the code; the only difference is where the
cuts fall. -/
def specProcessStep (step : String) : List String :=
  if hasEmbedded step.data then
    (specSplit step.data).foldr (fun part acc =>
      let p := pyStripL part
      if p = [] then acc
      else
        let cp := pyStripL (stripLeadNum p)
        if cp = [] then acc else String.mk cp :: acc) []
  else
    let cs := pyStripL (stripLeadNum step.data)
    if cs = [] then [] else [String.mk cs]

/-- The spec's description of split_embedded_steps as a whole. -/
def spec_split_embedded_steps (instructions : List String) : List String :=
  if instructions = [] then instructions
  else
    let cleaned := instructions.flatMap specProcessStep
    if cleaned = [] then instructions else cleaned

/-- Every code-level marker position of the line starts at a maximal digit run
(no digit immediately precedes it). -/
def goodMarkersGo : Option Char → List Char → Bool
  | _, [] => true
  | prev, c :: cs => (!(numDotSpaceHere (c :: cs)) || prevOkB prev) && goodMarkersGo (some c) cs

/-- Lines whose embedded-numbering markers all start at maximal digit runs. -/
def goodMarkers (s : String) : Bool := goodMarkersGo none s.data

/-
  JSON values and the structured-data extractor extract_schema_recipe
  (src/app.py lines 387-475).
-/

/-- Parsed JSON values, as json.loads yields them. -/
inductive Json where
  | null : Json
  | bool (b : Bool) : Json
  | num (q : ℚ) : Json
  | str (s : String) : Json
  | arr (xs : List Json) : Json
  | obj (fields : List (String × Json)) : Json

/-- Python truthiness of a JSON value. -/
def jTruthy : Json → Bool
  | .null => false
  | .bool b => b
  | .num q => !(q.num = 0 : Bool)
  | .str s => !(s = "" : Bool)
  | .arr xs => !xs.isEmpty
  | .obj fs => !fs.isEmpty

/-- dict lookup (keys of a json.loads dict are distinct). -/
def jLookup (fs : List (String × Json)) (k : String) : Option Json :=
  (fs.find? (fun p => p.1 = k)).map (fun p => p.2)

/-- Python == between a JSON value and a string literal. -/
def jIsStr (j : Json) (s : String) : Bool :=
  match j with
  | .str t => t = s
  | _ => false

/-- The Python exceptions the extractor can raise past json.loads. -/
inductive PyExc where
  | typeError : PyExc
  | attrError : PyExc

/-- Whether the except (json.JSONDecodeError, KeyError, TypeError) clause
catches the exception; AttributeError is not in the tuple. -/
def caughtByClause : PyExc → Bool
  | .typeError => true
  | .attrError => false

/-- x.get(k, dflt): dict lookup with a default; .get on any non-dict value
(strings included) raises AttributeError. -/
def pyGet (j : Json) (k : String) (dflt : Json) : Except PyExc Json :=
  match j with
  | .obj fs => .ok ((jLookup fs k).getD dflt)
  | _ => .error .attrError

/-- Whether pat occurs as a contiguous substring of cs. -/
def containsSub : List Char → List Char → Bool
  | pat, [] => pat.isEmpty
  | pat, c :: cs => pat.isPrefixOf (c :: cs) || containsSub pat cs

/-- The Python `in` operator as the extractor meets it: key containment on a
dict, substring containment on a string, element equality on a list; other
values are not containers and raise TypeError. -/
def pyIn (k : String) (j : Json) : Except PyExc Bool :=
  match j with
  | .obj fs => .ok (fs.any (fun p => p.1 = k))
  | .str s => .ok (containsSub k.data s.data)
  | .arr xs => .ok (xs.any (fun x => jIsStr x k))
  | _ => .error .typeError

/-- x[k] on the value the extractor just found '@graph' in: dict indexing, or
TypeError on a string (string indices must be integers). -/
def pyIndexKey (j : Json) (k : String) : Except PyExc Json :=
  match j with
  | .obj fs => .ok ((jLookup fs k).getD .null)
  | _ => .error .typeError

/-- The for-loop over a JSON array looking for the first item whose
.get('@type') equals 'Recipe'; an item without .get raises AttributeError. -/
def findRecipeItem : List Json → Except PyExc (Option Json)
  | [] => .ok none
  | item :: rest =>
    match pyGet item "@type" .null with
    | .error e => .error e
    | .ok t => if jIsStr t "Recipe" then .ok (some item) else findRecipeItem rest

/-- The same loop over an arbitrary @graph value: a string or dict iterates
strings (whose .get raises AttributeError at the first element), non-iterable
values raise TypeError. -/
def iterForRecipe : Json → Except PyExc (Option Json)
  | .arr xs => findRecipeItem xs
  | .str s => if s = "" then .ok none else .error .attrError
  | .obj fs => if fs.isEmpty then .ok none else .error .attrError
  | _ => .error .typeError

/-- The (?:(\d+)H)?-style optional group at the given position: a nonempty
maximal digit run directly followed by the tag character consumes both,
otherwise the group matches empty and contributes zero. -/
def optNumTag (tag : Char) (cs : List Char) : ℕ × List Char :=
  match cs.span isDig with
  | (ds@(_ :: _), t :: rest) => if t = tag then (digitsVal ds, rest) else (0, cs)
  | _ => (0, cs)

/-- re.match(r'PT(?:(\d+)H)?(?:(\d+)M)?', s) converted to minutes: the match
only requires the leading PT, absent groups count zero. -/
def parsePT (s : String) : Option ℕ :=
  match s.data with
  | 'P' :: 'T' :: rest =>
    let (h, r1) := optNumTag 'H' rest
    let (m, _) := optNumTag 'M' r1
    some (h * 60 + m)
  | _ => none

/-- parse_duration (src/app.py lines 437-446): falsy durations give None, and
str() of a non-string JSON value never begins with "PT", so only strings can
yield minutes. -/
def parse_duration (duration : Option Json) : Option ℕ :=
  match duration with
  | none => none
  | some d =>
    if !jTruthy d then none
    else match d with
      | .str s => parsePT s
      | _ => none

/-- The image post-processing: a list takes its first element (null when
empty), after which a dict takes its url field; null stands for Python None. -/
def resolveImage (img : Json) : Json :=
  let i1 := match img with
    | .arr (x :: _) => x
    | .arr [] => .null
    | other => other
  match i1 with
  | .obj fs => (jLookup fs "url").getD .null
  | other => other

/-- The recipeInstructions accumulation: a bare string wraps into a singleton
list; a list contributes its plain strings and, for dict entries, the
text-else-name field when truthy; any other shape leaves the list empty. -/
def collectInstructions (raw : Json) : List Json :=
  match raw with
  | .str s => [.str s]
  | .arr xs => xs.foldr (fun inst acc =>
      match inst with
      | .str s => .str s :: acc
      | .obj fs =>
        let text := (jLookup fs "text").getD ((jLookup fs "name").getD (.str ""))
        if jTruthy text then text :: acc else acc
      | _ => acc) []
  | _ => []

/-- A JSON list iterated as strings: a non-string element raises TypeError
(re.sub rejects it). -/
def strList : List Json → Except PyExc (List String)
  | [] => .ok []
  | x :: rest =>
    match x with
    | .str s =>
      match strList rest with
      | .ok l => .ok (s :: l)
      | .error e => .error e
    | _ => .error .typeError

/-- Iterating the ingredients value as the clean_ingredients list comprehension
does: a list must hold strings (re.sub raises TypeError on anything else), a
string iterates its characters, a dict its keys; other values are not iterable
and raise TypeError. -/
def iterStrings : Json → Except PyExc (List String)
  | .arr xs => strList xs
  | .str s => .ok (s.data.map (fun c => String.mk [c]))
  | .obj fs => .ok (fs.map (fun p => p.1))
  | _ => .error .typeError

/-- The canonical recipe record: the dict every extractor builds.  Fields that
Python fills with arbitrary JSON values (or None) are Json with null for None;
the duration fields are minutes. -/
structure Recipe where
  title : Json
  image : Json
  prep_time : Option ℕ
  cook_time : Option ℕ
  total_time : Option ℕ
  servings : Json
  ingredients : List String
  instructions : List Json
  source_url : String
  category : String

/-- The field extraction and record construction of extract_schema_recipe once
a Recipe-typed dict with fields fs is in hand; returns none (continue) when
both the ingredients and the instructions lists come out empty. -/
def buildSchemaRecipe (fs : List (String × Json)) (url : String) :
    Except PyExc (Option Recipe) :=
  let ing0 := (jLookup fs "recipeIngredient").getD (.arr [])
  let ingJ := if jTruthy ing0 then ing0 else (jLookup fs "ingredients").getD (.arr [])
  let raw_instructions := (jLookup fs "recipeInstructions").getD (.arr [])
  let instructions := collectInstructions raw_instructions
  match iterStrings ingJ with
  | .error e => .error e
  | .ok raws =>
    let recipe : Recipe := {
      title := (jLookup fs "name").getD (.str "Recipe")
      image := resolveImage ((jLookup fs "image").getD .null)
      prep_time := parse_duration (jLookup fs "prepTime")
      cook_time := parse_duration (jLookup fs "cookTime")
      total_time := parse_duration (jLookup fs "totalTime")
      servings := (jLookup fs "recipeYield").getD .null
      ingredients := clean_ingredients raws
      instructions := instructions
      source_url := url
      category := "Uncategorized" }
    if !recipe.ingredients.isEmpty || !recipe.instructions.isEmpty then .ok (some recipe)
    else .ok none

/-- The body of one script-loop iteration of extract_schema_recipe for one
parsed JSON-LD value: .ok none is the Python continue, .error e an exception
leaving the block body. -/
def processBlock (j : Json) (url : String) : Except PyExc (Option Recipe) :=
  match (match j with | .arr xs => findRecipeItem xs | _ => .ok (some j) :
      Except PyExc (Option Json)) with
  | .error e => .error e
  | .ok none => .ok none
  | .ok (some d0) =>
    match pyIn "@graph" d0 with
    | .error e => .error e
    | .ok hasGraph =>
      match (if hasGraph then
               match pyIndexKey d0 "@graph" with
               | .error e => .error e
               | .ok gv => iterForRecipe gv
             else .ok (some d0) : Except PyExc (Option Json)) with
      | .error e => .error e
      | .ok none => .ok none
      | .ok (some data1) =>
        match pyGet data1 "@type" .null with
        | .error e => .error e
        | .ok t =>
          if !jIsStr t "Recipe" then .ok none
          else match data1 with
            | .obj fs => buildSchemaRecipe fs url
            | _ => .error .attrError

/-- extract_schema_recipe over the page's parsed JSON-LD script blocks (the
script-tag location and json.loads are modelled by the list; a block whose
text json.loads rejects is none and is caught as json.JSONDecodeError).  An
.error result is an exception escaping the whole function, which only
AttributeError can. -/
def extract_schema_recipe : List (Option Json) → String → Except PyExc (Option Recipe)
  | [], _ => .ok none
  | none :: rest, url => extract_schema_recipe rest url
  | some j :: rest, url =>
    match processBlock j url with
    | .ok (some r) => .ok (some r)
    | .ok none => extract_schema_recipe rest url
    | .error e =>
      if caughtByClause e then extract_schema_recipe rest url else .error e

/-- The JSON-LD block of claim C7. -/
def blockC7 : Json :=
  .obj [("@type", .str "Recipe"),
        ("recipeIngredient", .arr [.str "2 cups flour"]),
        ("recipeInstructions", .arr [.obj [("text", .str "Mix")]]),
        ("prepTime", .str "PT15M")]

/-
  The heuristic extractors extract_weekendbakery_recipe (src/app.py lines
  477-561) and extract_generic_recipe (lines 563-624), over a content view in
  which BeautifulSoup navigation is already resolved to element texts.
-/

/-- Case-insensitive ASCII prefix test (for re.IGNORECASE literals). -/
def icStarts : List Char → List Char → Bool
  | [], _ => true
  | _ :: _, [] => false
  | p :: ps, c :: cs => (p.toLower = c.toLower : Bool) && icStarts ps cs

/-- Case-insensitive prefix followed by a \b word boundary (end of input or a
non-word character). -/
def icStartsBd : List Char → List Char → Bool
  | [], [] => true
  | [], c :: _ => !isWord c
  | _ :: _, [] => false
  | p :: ps, c :: cs => (p.toLower = c.toLower : Bool) && icStartsBd ps cs

/-- Case-insensitive literal followed by at least one whitespace (\s+). -/
def icThenSpc : List Char → List Char → Bool
  | [], c :: _ => isSpc c
  | [], [] => false
  | _ :: _, [] => false
  | p :: ps, c :: cs => (p.toLower = c.toLower : Bool) && icThenSpc ps cs

/-- re.search: the pattern matches at some position (the final empty suffix
included; every pattern below needs at least one character, so that position
never matches). -/
def searchAny (p : List Char → Bool) : List Char → Bool
  | [] => p []
  | c :: cs => p (c :: cs) || searchAny p cs

/-- One \d+\s*UNIT alternative, optionally closed by \b, anchored here
(case-insensitive). -/
def numUnitAt (unit : String) (bd : Bool) (cs : List Char) : Bool :=
  match cs.span isDig with
  | (_ :: _, r) =>
    let r2 := r.dropWhile isSpc
    if bd then icStartsBd unit.data r2 else icStarts unit.data r2
  | _ => false

/-- The method-1 ingredient signature of extract_weekendbakery_recipe:
re.search(r'\d+\s*g\b|\d+\s*ml\b|\d+\s*tsp|\d+\s*tbsp|\d+\s*cup|gram|ounce|\d+\s*oz',
text, I), anchored at one position. -/
def wbIngSigAt (cs : List Char) : Bool :=
  numUnitAt "g" true cs || numUnitAt "ml" true cs || numUnitAt "tsp" false cs ||
  numUnitAt "tbsp" false cs || numUnitAt "cup" false cs ||
  icStarts "gram".data cs || icStarts "ounce".data cs || numUnitAt "oz" false cs

/-- re.match(r'^\d+\s*(g|ml|tsp|tbsp|cup)\s+', text, I): digits, optional
whitespace, a unit alternative, then at least one whitespace. -/
def wbShortParaMatch (cs : List Char) : Bool :=
  match cs.span isDig with
  | (_ :: _, r) =>
    let r2 := r.dropWhile isSpc
    icThenSpc "g".data r2 || icThenSpc "ml".data r2 || icThenSpc "tsp".data r2 ||
    icThenSpc "tbsp".data r2 || icThenSpc "cup".data r2
  | _ => false

/-- re.match(r'^\d+\s+egg', text, I): digits, at least one whitespace, egg. -/
def wbEggMatch (cs : List Char) : Bool :=
  match cs.span isDig with
  | (_ :: _, r) =>
    let (sp, r2) := r.span isSpc
    !sp.isEmpty && icStarts "egg".data r2
  | _ => false

/-- \d+\s*g\s+\w+ anchored here (case-sensitive), yielding the suffix after its
first word character, where a following .* may begin. -/
def gUnitWordAt (cs : List Char) : Option (List Char) :=
  match cs.span isDig with
  | (_ :: _, r) =>
    match r.dropWhile isSpc with
    | 'g' :: r3 =>
      let (sp, r4) := r3.span isSpc
      if sp.isEmpty then none
      else match r4 with
        | w :: rest => if isWord w then some rest else none
        | [] => none
    | _ => none
  | _ => none

/-- .* (no newline) followed by a second \d+\s*g\s+\w+ group. -/
def seekGUnit : List Char → Bool
  | [] => false
  | c :: cs => (gUnitWordAt (c :: cs)).isSome || ((c = '\n' : Bool) = false && seekGUnit cs)

/-- re.search(r'\d+\s*g\s+\w+.*\d+\s*g\s+\w+', text) anchored at one position. -/
def wbMultiGAt (cs : List Char) : Bool :=
  match gUnitWordAt cs with
  | some rest => seekGUnit rest
  | none => false

/-- The method-3 split lookahead (?=\d+\s*g\s+). -/
def gMarkHere (cs : List Char) : Bool :=
  match cs.span isDig with
  | (_ :: _, r) =>
    match r.dropWhile isSpc with
    | 'g' :: r3 => match r3 with | c :: _ => isSpc c | [] => false
    | _ => false
  | _ => false

/-- \d+\s*g\b anchored here (case-sensitive). -/
def gBdAt (cs : List Char) : Bool :=
  match cs.span isDig with
  | (_ :: _, r) =>
    match r.dropWhile isSpc with
    | 'g' :: r3 => match r3 with | c :: _ => !isWord c | [] => true
    | _ => false
  | _ => false

/-- \bWORD\b at this position, given the previous character. -/
def wordBdAt (w : String) (prev : Option Char) (cs : List Char) : Bool :=
  (match prev with | none => true | some p => !isWord p) && icStartsBd w.data cs

/-- re.search(r'\b(w1|w2|...)\b', text, I), walking the positions with their
previous character. -/
def verbSearchGo (ws : List String) (prev : Option Char) : List Char → Bool
  | [] => false
  | c :: cs => ws.any (fun w => wordBdAt w prev (c :: cs)) || verbSearchGo ws (some c) cs

/-- Cooking-verb search over a string. -/
def verbSearch (ws : List String) (s : String) : Bool := verbSearchGo ws none s.data

/-- The weekendbakery cooking-verb vocabulary. -/
def wbVerbs : List String :=
  ["mix", "combine", "add", "stir", "fold", "knead", "roll", "bake", "proof", "preheat",
   "shape", "cut", "cover", "refrigerate", "let", "place", "brush", "repeat"]

/-- The generic-tier cooking-verb vocabulary. -/
def genVerbs : List String :=
  wbVerbs ++ ["cook", "heat", "simmer", "boil", "fry", "pour", "whisk"]

/-- The generic-tier measurement-unit vocabulary. -/
def genUnits : List String :=
  ["g", "kg", "ml", "l", "oz", "lb", "cup", "cups", "tsp", "tbsp", "teaspoon",
   "tablespoon", "gram", "grams", "ounce", "ounces"]

/-- The generic ingredient pattern \d+\s*(unit alternation)\b anchored here,
case-insensitive. -/
def genIngAt (cs : List Char) : Bool :=
  match cs.span isDig with
  | (_ :: _, r) =>
    let r2 := r.dropWhile isSpc
    genUnits.any (fun u => icStartsBd u.data r2)
  | _ => false

/-- re.search(r'logo|icon|avatar|button', src, I). -/
def decorSearch (s : String) : Bool :=
  searchAny (fun cs =>
    icStarts "logo".data cs || icStarts "icon".data cs ||
    icStarts "avatar".data cs || icStarts "button".data cs) s.data

/-- The view of the page that extract_weekendbakery_recipe consumes: the
get_text(strip=True) texts of the content region's elements in document order
(all ul list items flattened, all paragraphs, all ordered-list items), the
title heading text, and the first image's src-or-data-src.  The content-region
selection (entry-content div, else article, else the whole soup) is resolved
upstream of this record. -/
structure WBContent where
  h1 : Option String
  ulItems : List String
  paragraphs : List String
  olItems : List String
  imgSrc : Option String

/-- The three-method ingredient cascade of extract_weekendbakery_recipe:
measurement-pattern list items; if none, short measurement-led paragraphs (or
egg paragraphs); if still none, gram-boundary splitting of multi-gram-mention
paragraphs. -/
def wbIngredients (c : WBContent) : List String :=
  let ings1 := c.ulItems.filter (fun t => searchAny wbIngSigAt t.data)
  let ings2 :=
    if ings1.isEmpty then
      c.paragraphs.filter (fun t =>
        (t.length < 150 && wbShortParaMatch t.data) ||
        (t.length < 100 && wbEggMatch t.data))
    else ings1
  if ings2.isEmpty then
    c.paragraphs.flatMap (fun t =>
      if searchAny wbMultiGAt t.data then
        (splitLookahead gMarkHere t.data).foldr (fun part acc =>
          let p := pyStripL part
          if !p.isEmpty && searchAny gBdAt p then String.mk p :: acc else acc) []
      else [])
  else ings2

/-- The instruction cascade of extract_weekendbakery_recipe: ordered-list items
over 20 characters, else verb-bearing paragraphs over 50. -/
def wbInstructions (c : WBContent) : List String :=
  let instr1 := c.olItems.filter (fun t => t.length > 20)
  if instr1.isEmpty then
    c.paragraphs.filter (fun t => t.length > 50 && verbSearch wbVerbs t)
  else instr1

/-- extract_weekendbakery_recipe: the blog-layout tier; None when both the
ingredient and the instruction cascade end empty. -/
def extract_weekendbakery_recipe (c : WBContent) (url : String) : Option Recipe :=
  let ingredients := wbIngredients c
  let instructions := wbInstructions c
  if !ingredients.isEmpty || !instructions.isEmpty then
    some {
      title := .str (c.h1.getD "Recipe")
      image := ((c.imgSrc.map Json.str).getD .null)
      prep_time := none, cook_time := none, total_time := none
      servings := .null
      ingredients := clean_ingredients ingredients
      instructions := instructions.map Json.str
      source_url := url
      category := "Uncategorized" }
  else none

/-- The view extract_generic_recipe consumes; none models a page where all the
content-container lookups (article, content/post/entry div, main, body) fail,
making the extractor return None immediately. -/
structure GenContent where
  h1 : Option String
  liItems : List String
  paragraphs : List String
  imgSrcs : List String

/-- The generic-tier ingredient collection: every unit-pattern list item over
3 characters. -/
def genIngredients (c : GenContent) : List String :=
  c.liItems.filter (fun t =>
    !(t = "" : Bool) && t.length > 3 && searchAny genIngAt t.data)

/-- The generic-tier instruction collection: every verb-bearing paragraph over
60 characters. -/
def genInstructions (c : GenContent) : List String :=
  c.paragraphs.filter (fun t => t.length > 60 && verbSearch genVerbs t)

/-- extract_generic_recipe: the last-resort tier; the first non-decorative
image; None when both collections end empty or no content container exists. -/
def extract_generic_recipe (c? : Option GenContent) (url : String) : Option Recipe :=
  match c? with
  | none => none
  | some c =>
    let ingredients := genIngredients c
    let instructions := genInstructions c
    let image := c.imgSrcs.find? (fun s => !(s = "" : Bool) && !decorSearch s)
    if !ingredients.isEmpty || !instructions.isEmpty then
      some {
        title := .str (c.h1.getD "Recipe")
        image := ((image.map Json.str).getD .null)
        prep_time := none, cook_time := none, total_time := none
        servings := .null
        ingredients := clean_ingredients ingredients
        instructions := instructions.map Json.str
        source_url := url
        category := "Uncategorized" }
    else none

/-
  The orchestrator fetch_recipe (src/app.py lines 626-697) and its external
  collaborators.
-/

/-- Result of one recipe_scrapers per-field accessor call: a value, or an
exception. -/
inductive AccessRes (α : Type) where
  | raises : AccessRes α
  | ret (a : α) : AccessRes α

/-- safe_get for a string accessor: an exception or a falsy result is None. -/
def safeGetStr : AccessRes String → Option String
  | .raises => none
  | .ret s => if s = "" then none else some s

/-- safe_get for a minutes accessor: zero is falsy. -/
def safeGetNat : AccessRes ℕ → Option ℕ
  | .raises => none
  | .ret n => if n = 0 then none else some n

/-- safe_get for a list accessor: the empty list is falsy. -/
def safeGetList : AccessRes (List String) → Option (List String)
  | .raises => none
  | .ret l => if l.isEmpty then none else some l

/-- The known-site scraper object: the recipe_scrapers accessors with their
usual result types, each independently able to raise. -/
structure Scraper where
  title : AccessRes String
  image : AccessRes String
  prep_time : AccessRes ℕ
  cook_time : AccessRes ℕ
  total_time : AccessRes ℕ
  yields : AccessRes String
  ingredients : AccessRes (List String)
  instructions_list : AccessRes (List String)

/-- The record the known-site branch of fetch_recipe builds (lines 650-671):
every accessor goes through safe_get, with per-field defaults. -/
def knownSiteRecipe (sc : Scraper) (url : String) : Recipe :=
  let raw_ingredients := (safeGetList sc.ingredients).getD []
  { title := .str ((safeGetStr sc.title).getD "Recipe")
    image := ((safeGetStr sc.image).map Json.str).getD .null
    prep_time := safeGetNat sc.prep_time
    cook_time := safeGetNat sc.cook_time
    total_time := safeGetNat sc.total_time
    servings := ((safeGetStr sc.yields).map Json.str).getD .null
    ingredients := clean_ingredients raw_ingredients
    instructions := ((safeGetList sc.instructions_list).getD []).map Json.str
    source_url := url
    category := "Uncategorized" }

/-- Outcome of requests.get plus raise_for_status. -/
inductive FetchOutcome where
  | timeout : FetchOutcome
  | connError : FetchOutcome
  | httpError : FetchOutcome
  | ok : FetchOutcome

/-- Outcome of scrape_html on the fetched page: a scraper object, the
WebsiteNotImplementedError signal, or any other exception. -/
inductive ScrapeOutcome where
  | ok (sc : Scraper) : ScrapeOutcome
  | notImplemented : ScrapeOutcome
  | otherExc : ScrapeOutcome

/-- The fetched page as the three fallback extractors view it. -/
structure Page where
  blocks : List (Option Json)
  wb : WBContent
  gen : Option GenContent

/-- One extraction attempt's environment: the validators.url verdict on the
input string, the fetch outcome, the scrape_html outcome and the page
content. -/
structure Env where
  urlValid : Bool
  fetch : FetchOutcome
  scrape : ScrapeOutcome
  page : Page

def invalidUrlMsg : String :=
  "That doesn't look like a valid web address. Please paste the full URL including https://"

def timeoutMsg : String := "The website took too long to respond. Please try again."

def connErrorMsg : String := "Couldn't reach that website. Please check the link and try again."

def unsupportedMsg : String :=
  "This website isn't fully supported yet, and we couldn't find the recipe data. Try a different recipe site."

def genericMsg : String :=
  "Couldn't find a recipe on that page. Make sure you're pasting a link to a specific recipe, not just the homepage."

/-- fetch_recipe instrumented with a network-call counter (the number of
requests.get invocations in the attempt).  The source's outer try/except is
explicit here: the requests exceptions map to their messages, and an exception
escaping an extractor, or scrape_html failing with anything other than
WebsiteNotImplementedError, is absorbed by the trailing except Exception into
the generic message. -/
def fetchRecipeT (env : Env) (url : String) : (Option Recipe × Option String) × ℕ :=
  if !env.urlValid then ((none, some invalidUrlMsg), 0)
  else
    match env.fetch with
    | .timeout => ((none, some timeoutMsg), 1)
    | .connError => ((none, some connErrorMsg), 1)
    | .httpError => ((none, some connErrorMsg), 1)
    | .ok =>
      match env.scrape with
      | .ok sc => ((some (knownSiteRecipe sc url), none), 1)
      | .otherExc => ((none, some genericMsg), 1)
      | .notImplemented =>
        match extract_schema_recipe env.page.blocks url with
        | .error _ => ((none, some genericMsg), 1)
        | .ok (some r) => ((some r, none), 1)
        | .ok none =>
          match extract_weekendbakery_recipe env.page.wb url with
          | some r => ((some r, none), 1)
          | none =>
            match extract_generic_recipe env.page.gen url with
            | some r => ((some r, none), 1)
            | none => ((none, some unsupportedMsg), 1)

/-- fetch_recipe: the user-visible (recipe, error) pair. -/
def fetch_recipe (env : Env) (url : String) : Option Recipe × Option String :=
  (fetchRecipeT env url).1

/-- The claim-C4 blog-layout content: one paragraph, no list items. -/
def wbC4 : WBContent :=
  { h1 := some "Bread", ulItems := [], paragraphs := ["350 g flour 20 g sugar"],
    olItems := [], imgSrc := none }

/-
  Concrete fixtures used by the claim theorems.
-/

/-- A content region with nothing in it. -/
def emptyWB : WBContent :=
  { h1 := none, ulItems := [], paragraphs := [], olItems := [], imgSrc := none }

/-- A page with no JSON-LD blocks and no content. -/
def emptyPage : Page := { blocks := [], wb := emptyWB, gen := none }

/-- The environment of an attempt whose input fails URL validation. -/
def envInvalid : Env :=
  { urlValid := false, fetch := .ok, scrape := .notImplemented, page := emptyPage }

/-- A known-site scraper whose every per-field accessor raises. -/
def scraperAllRaise : Scraper :=
  { title := .raises, image := .raises, prep_time := .raises, cook_time := .raises,
    total_time := .raises, yields := .raises, ingredients := .raises,
    instructions_list := .raises }

/-- An attempt in which the known-site scraper accepts the site but every
accessor fails. -/
def envKnownSiteEmpty : Env :=
  { urlValid := true, fetch := .ok, scrape := .ok scraperAllRaise, page := emptyPage }

/-- The record the known-site branch builds when every accessor fails. -/
def rKnownEmpty : Recipe := knownSiteRecipe scraperAllRaise "https://example.com/r"

/-- The record extract_schema_recipe builds from blockC7. -/
def rC7 : Recipe :=
  { title := .str "Recipe", image := .null, prep_time := some 15, cook_time := none,
    total_time := none, servings := .null, ingredients := ["2 cups flour"],
    instructions := [.str "Mix"], source_url := "https://example.com/r",
    category := "Uncategorized" }

/-- A blog-layout content region holding one measurement list item, enough for
the blog fallback to produce a record. -/
def wbC2 : WBContent :=
  { h1 := some "Bread", ulItems := ["500 g strong flour"], paragraphs := [],
    olItems := [], imgSrc := none }

/-- An attempt whose page carries one JSON-LD block that parses to the bare
string "x" (its .get raises AttributeError), while the blog fallback tier has
usable content. -/
def envC2 : Env :=
  { urlValid := true, fetch := .ok, scrape := .notImplemented,
    page := { blocks := [some (Json.str "x")], wb := wbC2, gen := none } }

/-- A JSON-LD Recipe block whose only instruction is a run-on numbered string
and whose ingredient carries a decimal quantity. -/
def blockC3 : Json :=
  .obj [("@type", .str "Recipe"),
        ("recipeIngredient", .arr [.str "2.5 cups flour"]),
        ("recipeInstructions", .arr [.str "1. Mix flour 2. Add water 3. Bake"])]

/-- An attempt that reaches the schema fallback with blockC3. -/
def envC3 : Env :=
  { urlValid := true, fetch := .ok, scrape := .notImplemented,
    page := { blocks := [some blockC3], wb := emptyWB, gen := none } }

/-- The record extract_schema_recipe builds from blockC3. -/
def rC3 : Recipe :=
  { title := .str "Recipe", image := .null, prep_time := none, cook_time := none,
    total_time := none, servings := .null, ingredients := ["2 1/2 cups flour"],
    instructions := [.str "1. Mix flour 2. Add water 3. Bake"], source_url := "u",
    category := "Uncategorized" }

/-- The record extract_weekendbakery_recipe builds from wbC4. -/
def rC4 : Recipe :=
  { title := .str "Bread", image := .null, prep_time := none, cook_time := none,
    total_time := none, servings := .null, ingredients := ["350 g flour 20 g sugar"],
    instructions := [], source_url := "u", category := "Uncategorized" }

/-
  Theorems.  First the helper lemmas shared between claims, then one theorem
  (plus witness or counterexample) per claim.
-/

theorem isEmpty_false_iff {α : Type} (l : List α) : l.isEmpty = false ↔ l ≠ [] := by
  cases l <;> simp

theorem clean_ingredients_ne_nil {l : List String} (h : l ≠ []) :
    clean_ingredients l ≠ [] := by
  cases l with
  | nil => exact absurd rfl h
  | cons a t => simp [clean_ingredients]

/-- C9: for every attempt whose input string fails URL validation, fetch_recipe
returns the invalid-URL failure pair immediately, and the network-call counter
stays at zero. -/
theorem fetch_recipe_invalid_url (env : Env) (url : String)
    (h : env.urlValid = false) :
    fetchRecipeT env url = ((none, some invalidUrlMsg), 0) := by
  unfold fetchRecipeT
  rw [h]
  rfl

/-- Witness for C9 at a concrete invalid input. -/
theorem fetch_recipe_invalid_url_witness :
    envInvalid.urlValid = false ∧
    fetchRecipeT envInvalid "not a url" = ((none, some invalidUrlMsg), 0) :=
  ⟨rfl, fetch_recipe_invalid_url envInvalid "not a url" rfl⟩

/-- C5: every extraction attempt returns exactly one non-null component: a
record paired with a null error on success, or a null record paired with a
nonempty user-facing message on failure. -/
theorem fetch_recipe_exactly_one (env : Env) (url : String) :
    (∃ r, fetch_recipe env url = (some r, none)) ∨
    (∃ m, fetch_recipe env url = (none, some m) ∧ m ≠ "") := by
  obtain ⟨v, f, s, p⟩ := env
  unfold fetch_recipe fetchRecipeT
  cases v with
  | false => exact .inr ⟨invalidUrlMsg, rfl, by decide⟩
  | true =>
    cases f with
    | timeout => exact .inr ⟨timeoutMsg, rfl, by decide⟩
    | connError => exact .inr ⟨connErrorMsg, rfl, by decide⟩
    | httpError => exact .inr ⟨connErrorMsg, rfl, by decide⟩
    | ok =>
      cases s with
      | ok sc => exact .inl ⟨_, rfl⟩
      | otherExc => exact .inr ⟨genericMsg, rfl, by decide⟩
      | notImplemented =>
        simp only
        cases hsc : extract_schema_recipe p.blocks url with
        | error e => exact .inr ⟨genericMsg, by simp [hsc], by decide⟩
        | ok o =>
          cases o with
          | some r => exact .inl ⟨r, by simp [hsc]⟩
          | none =>
            cases hw : extract_weekendbakery_recipe p.wb url with
            | some r => exact .inl ⟨r, by simp [hsc, hw]⟩
            | none =>
              cases hg : extract_generic_recipe p.gen url with
              | some r => exact .inl ⟨r, by simp [hsc, hw, hg]⟩
              | none => exact .inr ⟨unsupportedMsg, by simp [hsc, hw, hg], by decide⟩

/-- C1 counterexample: on the known-site path with every per-field accessor
failing, fetch_recipe still succeeds, handing back a record whose ingredient
and instruction lists are both empty — the claimed invariant fails on that
success path. -/
theorem known_site_empty_record :
    fetch_recipe envKnownSiteEmpty "https://example.com/r" = (some rKnownEmpty, none) ∧
    rKnownEmpty.ingredients = [] ∧ rKnownEmpty.instructions = [] :=
  ⟨rfl, rfl, rfl⟩

theorem buildSchemaRecipe_ok {fs : List (String × Json)} {url : String} {r : Recipe}
    (h : buildSchemaRecipe fs url = .ok (some r)) :
    (∃ raw, r.ingredients = clean_ingredients raw) ∧
    (r.ingredients ≠ [] ∨ r.instructions ≠ []) := by
  unfold buildSchemaRecipe at h
  dsimp only at h
  split at h
  · exact absurd h (by simp)
  · split at h
    · rename_i hcond
      simp only [Except.ok.injEq, Option.some.injEq] at h
      subst h
      refine ⟨⟨_, rfl⟩, ?_⟩
      simp only [Bool.or_eq_true, Bool.not_eq_eq_eq_not, Bool.not_true,
        isEmpty_false_iff] at hcond
      exact hcond
    · exact absurd h (by simp)

theorem processBlock_ok {j : Json} {url : String} {r : Recipe}
    (h : processBlock j url = .ok (some r)) :
    (∃ raw, r.ingredients = clean_ingredients raw) ∧
    (r.ingredients ≠ [] ∨ r.instructions ≠ []) := by
  unfold processBlock at h
  iterate 8 (all_goals try split at h)
  all_goals first
    | exact buildSchemaRecipe_ok h
    | exact absurd h (by simp)

theorem extract_schema_ok {blocks : List (Option Json)} {url : String} {r : Recipe}
    (h : extract_schema_recipe blocks url = .ok (some r)) :
    (∃ raw, r.ingredients = clean_ingredients raw) ∧
    (r.ingredients ≠ [] ∨ r.instructions ≠ []) := by
  induction blocks with
  | nil => exact absurd h (by simp [extract_schema_recipe])
  | cons b rest ih =>
    cases b with
    | none => exact ih (by simpa [extract_schema_recipe] using h)
    | some j =>
      rw [extract_schema_recipe] at h
      split at h
      · rename_i r0 hp
        simp only [Except.ok.injEq, Option.some.injEq] at h
        subst h
        exact processBlock_ok hp
      · exact ih h
      · split at h
        · exact ih h
        · exact absurd h (by simp)

theorem extract_weekendbakery_ok {c : WBContent} {url : String} {r : Recipe}
    (h : extract_weekendbakery_recipe c url = some r) :
    (∃ raw, r.ingredients = clean_ingredients raw) ∧
    (r.ingredients ≠ [] ∨ r.instructions ≠ []) := by
  unfold extract_weekendbakery_recipe at h
  dsimp only at h
  split at h
  · rename_i hcond
    simp only [Option.some.injEq] at h
    subst h
    refine ⟨⟨_, rfl⟩, ?_⟩
    simp only [Bool.or_eq_true, Bool.not_eq_eq_eq_not, Bool.not_true,
      isEmpty_false_iff] at hcond
    rcases hcond with hi | hins
    · exact .inl (clean_ingredients_ne_nil hi)
    · refine .inr ?_
      intro hmap
      exact hins (by simpa using hmap)
  · exact absurd h (by simp)

theorem extract_generic_ok {c? : Option GenContent} {url : String} {r : Recipe}
    (h : extract_generic_recipe c? url = some r) :
    (∃ raw, r.ingredients = clean_ingredients raw) ∧
    (r.ingredients ≠ [] ∨ r.instructions ≠ []) := by
  unfold extract_generic_recipe at h
  split at h
  · exact absurd h (by simp)
  · dsimp only at h
    split at h
    · rename_i hcond
      simp only [Option.some.injEq] at h
      subst h
      refine ⟨⟨_, rfl⟩, ?_⟩
      simp only [Bool.or_eq_true, Bool.not_eq_eq_eq_not, Bool.not_true,
        isEmpty_false_iff] at hcond
      rcases hcond with hi | hins
      · exact .inl (clean_ingredients_ne_nil hi)
      · refine .inr ?_
        intro hmap
        exact hins (by simpa using hmap)
    · exact absurd h (by simp)

/-- C1 amended: a record is returned from the fallback extraction chain
(schema, blog and generic extractors) only when its ingredients list or its
instructions list is nonempty; the known-site path carries no such guard and
can hand back a record with both lists empty. -/
theorem fallback_chain_nonempty (blocks : List (Option Json)) (wb : WBContent)
    (gen : Option GenContent) (url : String) (r₁ r₂ r₃ : Recipe) :
    (extract_schema_recipe blocks url = .ok (some r₁) →
      r₁.ingredients ≠ [] ∨ r₁.instructions ≠ []) ∧
    (extract_weekendbakery_recipe wb url = some r₂ →
      r₂.ingredients ≠ [] ∨ r₂.instructions ≠ []) ∧
    (extract_generic_recipe gen url = some r₃ →
      r₃.ingredients ≠ [] ∨ r₃.instructions ≠ []) :=
  ⟨fun h => (extract_schema_ok h).2,
   fun h => (extract_weekendbakery_ok h).2,
   fun h => (extract_generic_ok h).2⟩

/-- Witness for the amended C1, discharging each hypothesis at a concrete
extraction. -/
theorem fallback_chain_nonempty_witness :
    extract_schema_recipe [some blockC7] "https://example.com/r" = .ok (some rC7) ∧
    (rC7.ingredients ≠ [] ∨ rC7.instructions ≠ []) ∧
    extract_weekendbakery_recipe wbC4 "u" = some rC4 ∧
    (rC4.ingredients ≠ [] ∨ rC4.instructions ≠ []) :=
  ⟨rfl,
   (fallback_chain_nonempty [some blockC7] wbC4 none "https://example.com/r" rC7 rC4 rC4).1 rfl,
   rfl,
   (fallback_chain_nonempty [some blockC7] wbC4 none "u" rC7 rC4 rC4).2.1 rfl⟩

/-- C7: the JSON-LD Recipe block with recipeIngredient ["2 cups flour"], the
object-wrapped instruction {"text": "Mix"} and prepTime "PT15M" produces a
record with exactly that one ingredient, exactly the one instruction "Mix",
and prep_time of 15 minutes. -/
theorem schema_extracts_c7_block :
    extract_schema_recipe [some blockC7] "https://example.com/r" = .ok (some rC7) ∧
    rC7.ingredients = ["2 cups flour"] ∧ rC7.instructions = [.str "Mix"] ∧
    rC7.prep_time = some 15 :=
  ⟨rfl, rfl, rfl, rfl⟩

/-- C2 counterexample: a JSON-LD block whose parsed value is the bare string
"x" raises an AttributeError, which is outside the caught exception set; the
orchestrator does not proceed to the blog fallback (which had extractable
content here) but aborts the chain with the generic failure. -/
theorem schema_error_aborts_chain :
    extract_schema_recipe [some (Json.str "x")] "u" = .error .attrError ∧
    (extract_weekendbakery_recipe wbC2 "u").isSome = true ∧
    fetch_recipe envC2 "u" = (none, some genericMsg) :=
  ⟨rfl, rfl, rfl⟩

/-- C2 amended: malformed blocks (json.loads failures) and exceptions in the
caught set (e.g. TypeError) are recovered per block, the scan proceeding to
the next block; an exception outside the caught set escapes
extract_schema_recipe, and is absorbed only by fetch_recipe's outer handler,
which aborts the fallback chain with the generic error — no exception crosses
fetch_recipe's own boundary. -/
theorem schema_errors_contained (j : Json) (rest : List (Option Json)) (url : String)
    (env : Env) (e : PyExc) :
    (extract_schema_recipe (none :: rest) url = extract_schema_recipe rest url) ∧
    (processBlock j url = .error .typeError →
      extract_schema_recipe (some j :: rest) url = extract_schema_recipe rest url) ∧
    (env.urlValid = true → env.fetch = .ok → env.scrape = .notImplemented →
      extract_schema_recipe env.page.blocks url = .error e →
      fetch_recipe env url = (none, some genericMsg)) := by
  refine ⟨rfl, fun hp => ?_, fun h1 h2 h3 h4 => ?_⟩
  · rw [extract_schema_recipe, hp]
    rfl
  · unfold fetch_recipe fetchRecipeT
    rw [h1, h2, h3, h4]
    rfl

/-- Witness for the amended C2: a numeric block is skipped (TypeError caught),
and the string block's AttributeError surfaces as the generic failure. -/
theorem schema_errors_contained_witness :
    processBlock (Json.num 5) "u" = .error .typeError ∧
    extract_schema_recipe [some (Json.num 5)] "u" = extract_schema_recipe [] "u" ∧
    extract_schema_recipe envC2.page.blocks "u" = .error .attrError ∧
    fetch_recipe envC2 "u" = (none, some genericMsg) :=
  ⟨rfl, (schema_errors_contained (Json.num 5) [] "u" envC2 .attrError).2.1 rfl,
   rfl, (schema_errors_contained (Json.num 5) [] "u" envC2 .attrError).2.2 rfl rfl rfl rfl⟩

/-- C3 counterexample: fetch_recipe hands back the schema record with its
run-on numbered instruction string intact; split_embedded_steps would divide
it into three discrete steps, so the returned instructions have not passed
through the splitter. -/
theorem fetch_returns_unsplit_instructions :
    fetch_recipe envC3 "u" = (some rC3, none) ∧
    rC3.instructions = [.str "1. Mix flour 2. Add water 3. Bake"] ∧
    split_embedded_steps ["1. Mix flour 2. Add water 3. Bake"] =
      ["Mix flour", "Add water", "Bake"] ∧
    rC3.instructions ≠
      (split_embedded_steps ["1. Mix flour 2. Add water 3. Bake"]).map Json.str := by
  refine ⟨rfl, rfl, by decide, ?_⟩
  rw [show split_embedded_steps ["1. Mix flour 2. Add water 3. Bake"] =
      ["Mix flour", "Add water", "Bake"] from by decide]
  simp [rC3]

/-- C3 amended: the ingredients of every record fetch_recipe returns have
passed through the decimal-to-fraction normalizer — they are the
clean_ingredients image of the raw extracted list — while instructions are
returned exactly as extracted (the embedded-step splitter runs in the display
layer, not in fetch_recipe). -/
theorem fetch_recipe_ingredients_cleaned (env : Env) (url : String) (r : Recipe)
    (h : fetch_recipe env url = (some r, none)) :
    ∃ raw, r.ingredients = clean_ingredients raw := by
  obtain ⟨v, f, s, p⟩ := env
  unfold fetch_recipe fetchRecipeT at h
  cases v with
  | false => simp at h
  | true =>
    rw [if_neg (by simp)] at h
    cases f with
    | timeout => simp at h
    | connError => simp at h
    | httpError => simp at h
    | ok =>
      cases s with
      | ok sc =>
        simp only [Prod.mk.injEq, Option.some.injEq] at h
        exact ⟨(safeGetList sc.ingredients).getD [], by rw [← h.1]; rfl⟩
      | otherExc => simp at h
      | notImplemented =>
        cases hsc : extract_schema_recipe p.blocks url with
        | error e =>
          rw [hsc] at h
          simp at h
        | ok o =>
          cases o with
          | some r0 =>
            rw [hsc] at h
            simp only [Prod.mk.injEq, Option.some.injEq] at h
            exact h.1 ▸ (extract_schema_ok hsc).1
          | none =>
            rw [hsc] at h
            cases hw : extract_weekendbakery_recipe p.wb url with
            | some r0 =>
              rw [hw] at h
              simp only [Prod.mk.injEq, Option.some.injEq] at h
              exact h.1 ▸ (extract_weekendbakery_ok hw).1
            | none =>
              rw [hw] at h
              cases hg : extract_generic_recipe p.gen url with
              | some r0 =>
                rw [hg] at h
                simp only [Prod.mk.injEq, Option.some.injEq] at h
                exact h.1 ▸ (extract_generic_ok hg).1
              | none =>
                rw [hg] at h
                simp at h

/-- Witness for the amended C3 at a concrete successful extraction. -/
theorem fetch_recipe_ingredients_cleaned_witness :
    fetch_recipe envC3 "u" = (some rC3, none) ∧
    ∃ raw, rC3.ingredients = clean_ingredients raw :=
  ⟨rfl, fetch_recipe_ingredients_cleaned envC3 "u" rC3 rfl⟩

/-- C4 counterexample: with no list-item ingredients present, the paragraph
"350 g flour 20 g sugar" is captured whole by the short-paragraph rule
(method b, which matches its leading numeral-unit), yielding a single
fragment — not the two claimed fragments. -/
theorem wb_two_grams_not_split :
    extract_weekendbakery_recipe wbC4 "u" = some rC4 ∧
    rC4.ingredients = ["350 g flour 20 g sugar"] ∧
    rC4.ingredients ≠ ["350 g flour", "20 g sugar"] :=
  ⟨rfl, rfl, by decide⟩

/-- C4 amended: the blog-layout tier returns that paragraph as exactly one
ingredient fragment, the whole paragraph text, because the short-paragraph
rule (method b) matches it first; the gram-boundary splitter (method c) is
reached only when method b found nothing. -/
theorem wb_two_grams_single_fragment :
    wbShortParaMatch "350 g flour 20 g sugar".data = true ∧
    wbIngredients wbC4 = ["350 g flour 20 g sugar"] ∧
    extract_weekendbakery_recipe wbC4 "u" = some rC4 :=
  ⟨by decide, by decide, rfl⟩

/-- C8 counterexample: on a line with two-digit step numbers the zero-width
split also cuts inside the numerals, emitting stray digit segments; the code's
output differs from the spec-described split before each maximal
digits-period marker. -/
theorem split_embedded_multidigit_diverges :
    split_embedded_steps ["10. Mix batter thoroughly 11. Bake it now"] =
      ["1", "Mix batter thoroughly", "1", "Bake it now"] ∧
    spec_split_embedded_steps ["10. Mix batter thoroughly 11. Bake it now"] =
      ["Mix batter thoroughly", "Bake it now"] ∧
    split_embedded_steps ["10. Mix batter thoroughly 11. Bake it now"] ≠
      spec_split_embedded_steps ["10. Mix batter thoroughly 11. Bake it now"] :=
  ⟨by decide, by decide, by decide⟩

theorem splitGo_eq_specGo (cs : List Char) :
    ∀ (prev : Option Char) (acc : List Char), goodMarkersGo prev cs = true →
    splitLookaheadGo numDotSpaceHere acc cs = specSplitGo prev acc cs := by
  induction cs with
  | nil => intro prev acc _; rfl
  | cons c cs ih =>
    intro prev acc hg
    rw [goodMarkersGo] at hg
    simp only [Bool.and_eq_true, Bool.or_eq_true] at hg
    obtain ⟨hor, hrest⟩ := hg
    rw [splitLookaheadGo, specSplitGo]
    by_cases hm : numDotSpaceHere (c :: cs) = true
    · have hprev : prevOkB prev = true := by
        rcases hor with hcon | hp
        · rw [hm] at hcon; simp at hcon
        · exact hp
      rw [if_pos hm, if_pos (by rw [hm, hprev]; rfl)]
      rw [ih (some c) [c] hrest]
    · rw [if_neg hm, if_neg (by rw [Bool.not_eq_true] at hm; rw [hm]; simp)]
      exact ih (some c) (c :: acc) hrest

theorem processStep_eq_spec (s : String) (hg : goodMarkers s = true) :
    processStep s = specProcessStep s := by
  unfold processStep specProcessStep splitLookahead specSplit
  rw [splitGo_eq_specGo s.data none [] hg]

theorem flatMap_processStep_eq (steps : List String)
    (hg : ∀ s ∈ steps, goodMarkers s = true) :
    steps.flatMap processStep = steps.flatMap specProcessStep := by
  induction steps with
  | nil => rfl
  | cons a t ih =>
    simp only [List.flatMap_cons]
    rw [processStep_eq_spec a (hg a (List.mem_cons_self a t)),
        ih (fun s hs => hg s (List.mem_cons_of_mem a hs))]

/-- C8 amended: for instruction lines whose embedded-numbering markers all
start at maximal digit runs (single-digit step numbers in particular),
split_embedded_steps does exactly what the spec describes: split immediately
before each digits-period-whitespace marker, strip the leading numeral and
period from each segment, and emit each nonempty segment as one step; in
particular the three-step example yields its three steps with no leading
numerals.  (On markers inside multi-digit numerals the code additionally cuts
mid-number — the counterexample.) -/
theorem split_embedded_steps_spec (steps : List String)
    (hg : ∀ s ∈ steps, goodMarkers s = true) :
    split_embedded_steps steps = spec_split_embedded_steps steps ∧
    split_embedded_steps ["1. Mix flour 2. Add water 3. Bake"] =
      ["Mix flour", "Add water", "Bake"] := by
  constructor
  · unfold split_embedded_steps spec_split_embedded_steps
    rw [flatMap_processStep_eq steps hg]
  · decide

/-- Witness for the amended C8 at the claim's concrete line. -/
theorem split_embedded_steps_spec_witness :
    (∀ s ∈ ["1. Mix flour 2. Add water 3. Bake"], goodMarkers s = true) ∧
    split_embedded_steps ["1. Mix flour 2. Add water 3. Bake"] =
      spec_split_embedded_steps ["1. Mix flour 2. Add water 3. Bake"] ∧
    split_embedded_steps ["1. Mix flour 2. Add water 3. Bake"] =
      ["Mix flour", "Add water", "Bake"] :=
  ⟨by decide, (split_embedded_steps_spec ["1. Mix flour 2. Add water 3. Bake"] (by decide)).1,
   (split_embedded_steps_spec ["1. Mix flour 2. Add water 3. Bake"] (by decide)).2⟩

/-- C10 counterexample: cleaning "..5" replaces ".5" with "1/2", and the
leftover dot together with the replacement's leading digit forms a fresh
decimal pattern, which a second cleaning rewrites again — clean_ingredient is
not idempotent. -/
theorem clean_ingredient_not_idem :
    clean_ingredient "..5" = ".1/2" ∧
    clean_ingredient (clean_ingredient "..5") = "1/8/2" ∧
    clean_ingredient (clean_ingredient "..5") ≠ clean_ingredient "..5" :=
  ⟨by decide, by decide, by decide⟩

theorem subDec_no_match (l : List Char) (h : hasDecMatch l = false) :
    ∀ fuel, subDec fuel l = l := by
  induction l with
  | nil => intro fuel; cases fuel <;> rfl
  | cons c cs ih =>
    intro fuel
    rw [hasDecMatch, Bool.or_eq_false_iff] at h
    obtain ⟨h1, h2⟩ := h
    cases fuel with
    | zero => rfl
    | succ n =>
      cases hd : decMatchAt (c :: cs) with
      | some p => rw [hd] at h1; simp at h1
      | none =>
        rw [subDec, hd]
        show c :: subDec n cs = c :: cs
        rw [ih h2 n]

/-- C10 amended: clean_ingredient is idempotent on every input whose cleaned
form contains no decimal-pattern substring — a successful replacement emits no
dot and a failed conversion leaves its text unchanged, so re-cleaning is the
identity once the first pass has removed every decimal pattern.  (A leftover
dot immediately before a replacement can create a fresh pattern, as in "..5":
the counterexample.) -/
theorem clean_ingredient_idem (s : String)
    (h : hasDecMatch (clean_ingredient s).data = false) :
    clean_ingredient (clean_ingredient s) = clean_ingredient s := by
  show String.mk (subDec (clean_ingredient s).data.length (clean_ingredient s).data) = _
  rw [subDec_no_match _ h]

/-- Witness for the amended C10 on a typical ingredient line. -/
theorem clean_ingredient_idem_witness :
    hasDecMatch (clean_ingredient "1.5 cups sugar").data = false ∧
    clean_ingredient (clean_ingredient "1.5 cups sugar") = clean_ingredient "1.5 cups sugar" :=
  ⟨by decide, clean_ingredient_idem "1.5 cups sugar" (by decide)⟩

/-
  Rational bridging lemmas: the computable helpers agree with the Mathlib
  operations, for use in the decimal_to_fraction proofs.
-/

theorem mkRat_eq_div (n : ℤ) (d : ℕ) : mkRat n d = (n : ℚ) / (d : ℚ) := by
  rw [Rat.mkRat_eq_divInt, Rat.divInt_eq_div]
  norm_num

theorem num_eq_mul_den (a : ℚ) : (a.num : ℚ) = a * a.den := by
  have ha : (a.den : ℚ) ≠ 0 := by exact_mod_cast a.den_ne_zero
  calc (a.num : ℚ) = (a.num : ℚ) / a.den * a.den := (div_mul_cancel₀ _ ha).symm
  _ = a * a.den := by rw [Rat.num_div_den]

theorem qSub_eq (a b : ℚ) : qSub a b = a - b := by
  rw [qSub, mkRat_eq_div]
  have ha : (a.den : ℚ) ≠ 0 := by exact_mod_cast a.den_ne_zero
  have hb : (b.den : ℚ) ≠ 0 := by exact_mod_cast b.den_ne_zero
  rw [div_eq_iff (by push_cast; exact mul_ne_zero ha hb)]
  push_cast
  rw [num_eq_mul_den a, num_eq_mul_den b]
  ring

theorem qAbs_eq (a : ℚ) : qAbs a = |a| := by
  rw [qAbs]
  by_cases h : a.num < 0
  · rw [if_pos h, Rat.mkRat_eq_divInt, ← Rat.neg_divInt, Rat.num_divInt_den,
      abs_of_neg (by rwa [← Rat.num_neg])]
  · rw [if_neg h, abs_of_nonneg (by rw [← Rat.num_nonneg]; omega)]

theorem qMulNat_eq (a : ℚ) (n : ℕ) : qMulNat a n = a * n := by
  rw [qMulNat, mkRat_eq_div]
  have ha : (a.den : ℚ) ≠ 0 := by exact_mod_cast a.den_ne_zero
  rw [div_eq_iff ha]
  push_cast
  rw [num_eq_mul_den a]
  ring

theorem qFloor_eq (a : ℚ) : qFloor a = ⌊a⌋ := by
  rw [qFloor, Int.fdiv_eq_ediv _ (by exact_mod_cast Nat.zero_le a.den), Rat.floor_def]

theorem pyIntPart_eq_floor (q : ℚ) (hq : 0 ≤ q) : pyIntPart q = ⌊q⌋ := by
  rw [pyIntPart, Int.tdiv_eq_ediv (by rwa [Rat.num_nonneg]) (by exact_mod_cast Nat.zero_le q.den),
    Rat.floor_def]

theorem fracPart_eq_fract (q : ℚ) (hq : 0 ≤ q) : fracPart q = Int.fract q := by
  rw [fracPart, qSub_eq, pyIntPart_eq_floor q hq, Rat.mkRat_one, Int.fract]

/-- The tolerance test of scanCF, in Mathlib terms. -/
theorem qlt_cond (a b : ℚ) : (qAbs (qSub a b) < mkRat 1 50) ↔ |a - b| < 1/50 := by
  rw [qAbs_eq, qSub_eq, mkRat_eq_div]
  norm_num

theorem common_fractions_val : common_fractions =
    [((1:ℚ)/8, "1/8"), (1/4, "1/4"), (333/1000, "1/3"), (3/8, "3/8"), (1/2, "1/2"),
     (5/8, "5/8"), (333/500, "2/3"), (667/1000, "2/3"), (3/4, "3/4"), (7/8, "7/8")] := by
  rw [common_fractions]
  norm_num [mkRat_eq_div]

theorem tabulatedFractions_val : tabulatedFractions =
    [((1:ℚ)/8, "1/8"), (1/4, "1/4"), (1/3, "1/3"), (3/8, "3/8"), (1/2, "1/2"),
     (5/8, "5/8"), (2/3, "2/3"), (3/4, "3/4"), (7/8, "7/8")] := by
  rw [tabulatedFractions]
  norm_num [mkRat_eq_div]

theorem foldl_closest (q cstar : ℚ) :
    ∀ (l : List ℚ) (b : ℚ),
    (b = cstar ∨ cstar ∈ l) →
    (b ≠ cstar → |q - cstar| < |q - b|) →
    (∀ y ∈ l, y ≠ cstar → |q - cstar| < |q - y|) →
    l.foldl (fun acc x => if qAbs (qSub q x) < qAbs (qSub q acc) then x else acc) b = cstar := by
  intro l
  induction l with
  | nil =>
    intro b hmem _ _
    rcases hmem with h | h
    · exact h
    · exact absurd h (List.not_mem_nil _)
  | cons x xs ih =>
    intro b hmem hb hl
    rw [List.foldl_cons]
    have hcond : (qAbs (qSub q x) < qAbs (qSub q b)) ↔ |q - x| < |q - b| := by
      rw [qAbs_eq, qSub_eq, qAbs_eq, qSub_eq]
    by_cases hlt : |q - x| < |q - b|
    · rw [if_pos (hcond.mpr hlt)]
      refine ih x ?_ ?_ (fun y hy => hl y (List.mem_cons_of_mem _ hy))
      · by_cases hx : x = cstar
        · exact .inl hx
        · have hcx := hl x (List.mem_cons_self _ _) hx
          have hbne : b ≠ cstar := by
            intro hbc
            subst hbc
            exact absurd hlt (by intro hcon; exact lt_asymm hcon hcx)
          rcases hmem with h | h
          · exact absurd h hbne
          · rcases List.mem_cons.mp h with h | h
            · exact absurd h.symm hx
            · exact .inr h
      · intro hx
        exact hl x (List.mem_cons_self _ _) hx
    · rw [if_neg (fun hc => hlt (hcond.mp hc))]
      refine ih b ?_ hb (fun y hy => hl y (List.mem_cons_of_mem _ hy))
      rcases hmem with h | h
      · exact .inl h
      · rcases List.mem_cons.mp h with h | h
        · subst h
          left
          by_contra hbc
          exact hlt (hb hbc)
        · exact .inr h

theorem limitDen8_third_sliver (w : ℤ) (q : ℚ)
    (hlo : (w:ℚ) + 353/1000 ≤ q) (hhi : q < (w:ℚ) + 53/150) :
    limit_denominator8 q = mkRat (3 * w + 1) 3 := by
  have hcstar : (mkRat (3*w+1) 3 : ℚ) = (w:ℚ) + 1/3 := by
    rw [mkRat_eq_div]
    push_cast
    ring
  have hden : ¬ q.den ≤ 8 := by
    intro hd8
    have hdpos : (0:ℚ) < (q.den : ℚ) := by exact_mod_cast q.pos
    have hkey : (q - w) * (q.den : ℚ) = ((q.num - w * q.den : ℤ) : ℚ) := by
      push_cast
      rw [num_eq_mul_den q]
      ring
    have h1 : (353 : ℚ) * q.den ≤ 1000 * ((q.num - w * q.den : ℤ) : ℚ) := by
      have hstep := mul_le_mul_of_nonneg_right
        (by linarith : (353:ℚ)/1000 ≤ q - w) (le_of_lt hdpos)
      rw [hkey] at hstep
      linarith
    have h2 : (150 : ℚ) * ((q.num - w * q.den : ℤ) : ℚ) < 53 * q.den := by
      have hstep := mul_lt_mul_of_pos_right (by linarith : q - w < 53/150) hdpos
      rw [hkey] at hstep
      linarith
    have h1' : 353 * (q.den : ℤ) ≤ 1000 * (q.num - w * q.den) := by exact_mod_cast h1
    have h2' : 150 * (q.num - w * q.den) < 53 * (q.den : ℤ) := by exact_mod_cast h2
    have hd1 : 1 ≤ q.den := q.pos
    interval_cases hd : q.den <;> omega
  have h0 : qFloor q = w := by
    rw [qFloor_eq, Int.floor_eq_iff]
    constructor <;> linarith
  have h1 : qFloor (qMulNat q 1) = 1 * w + 0 := by
    rw [qMulNat_eq, qFloor_eq, Int.floor_eq_iff]
    constructor <;> push_cast <;> linarith
  have h2 : qFloor (qMulNat q 2) = 2 * w + 0 := by
    rw [qMulNat_eq, qFloor_eq, Int.floor_eq_iff]
    constructor <;> push_cast <;> linarith
  have h3 : qFloor (qMulNat q 3) = 3 * w + 1 := by
    rw [qMulNat_eq, qFloor_eq, Int.floor_eq_iff]
    constructor <;> push_cast <;> linarith
  have h4 : qFloor (qMulNat q 4) = 4 * w + 1 := by
    rw [qMulNat_eq, qFloor_eq, Int.floor_eq_iff]
    constructor <;> push_cast <;> linarith
  have h5 : qFloor (qMulNat q 5) = 5 * w + 1 := by
    rw [qMulNat_eq, qFloor_eq, Int.floor_eq_iff]
    constructor <;> push_cast <;> linarith
  have h6 : qFloor (qMulNat q 6) = 6 * w + 2 := by
    rw [qMulNat_eq, qFloor_eq, Int.floor_eq_iff]
    constructor <;> push_cast <;> linarith
  have h7 : qFloor (qMulNat q 7) = 7 * w + 2 := by
    rw [qMulNat_eq, qFloor_eq, Int.floor_eq_iff]
    constructor <;> push_cast <;> linarith
  have h8 : qFloor (qMulNat q 8) = 8 * w + 2 := by
    rw [qMulNat_eq, qFloor_eq, Int.floor_eq_iff]
    constructor <;> push_cast <;> linarith
  rw [limit_denominator8, if_neg hden]
  simp only [h0, h1, h2, h3, h4, h5, h6, h7, h8, List.cons_append, List.nil_append]
  have honethird : (1*w+0 : ℤ) = w := by ring
  rw [honethird]
  apply foldl_closest
  · refine .inr ?_
    simp [List.mem_cons]
  · intro _
    rw [hcstar, mkRat_eq_div]
    push_cast
    rw [abs_of_nonneg (by linarith), abs_of_nonneg (by linarith)]
    linarith
  · intro y hy hne
    fin_cases hy
    · rw [hcstar, mkRat_eq_div]
      push_cast
      rw [abs_of_nonneg (by linarith), abs_of_nonneg (by linarith)]
      linarith
    · rw [hcstar, mkRat_eq_div]
      push_cast
      rw [abs_of_nonneg (by linarith), abs_of_nonpos (by linarith)]
      linarith
    · rw [hcstar, mkRat_eq_div]
      push_cast
      rw [abs_of_nonneg (by linarith), abs_of_nonneg (by linarith)]
      linarith
    · rw [hcstar, mkRat_eq_div]
      push_cast
      rw [abs_of_nonneg (by linarith), abs_of_nonpos (by linarith)]
      linarith
    · exact absurd rfl hne
    · rw [hcstar, mkRat_eq_div]
      push_cast
      rw [abs_of_nonneg (by linarith), abs_of_nonpos (by linarith)]
      linarith
    · rw [hcstar, mkRat_eq_div]
      push_cast
      rw [abs_of_nonneg (by linarith), abs_of_nonneg (by linarith)]
      linarith
    · rw [hcstar, mkRat_eq_div]
      push_cast
      rw [abs_of_nonneg (by linarith), abs_of_nonpos (by linarith)]
      linarith
    · rw [hcstar, mkRat_eq_div]
      push_cast
      rw [abs_of_nonneg (by linarith), abs_of_nonneg (by linarith)]
      linarith
    · rw [hcstar, mkRat_eq_div]
      push_cast
      rw [abs_of_nonneg (by linarith), abs_of_nonpos (by linarith)]
      linarith
    · exact absurd (by rw [mkRat_eq_div, mkRat_eq_div]; push_cast; ring) hne
    · rw [hcstar, mkRat_eq_div]
      push_cast
      rw [abs_of_nonneg (by linarith), abs_of_nonpos (by linarith)]
      linarith
    · rw [hcstar, mkRat_eq_div]
      push_cast
      rw [abs_of_nonneg (by linarith), abs_of_nonneg (by linarith)]
      linarith
    · rw [hcstar, mkRat_eq_div]
      push_cast
      rw [abs_of_nonneg (by linarith), abs_of_nonpos (by linarith)]
      linarith
    · rw [hcstar, mkRat_eq_div]
      push_cast
      rw [abs_of_nonneg (by linarith), abs_of_nonneg (by linarith)]
      linarith
    · rw [hcstar, mkRat_eq_div]
      push_cast
      rw [abs_of_nonneg (by linarith), abs_of_nonpos (by linarith)]
      linarith

theorem scanCF_skip (fp k : ℚ) (f : String) (rest : List (ℚ × String))
    (h : ¬ |fp - k| < 1/50) : scanCF ((k, f) :: rest) fp = scanCF rest fp := by
  simp only [scanCF]
  rw [if_neg ((not_congr (qlt_cond fp k)).mpr h)]

theorem scanCF_found (fp k : ℚ) (f : String) (rest : List (ℚ × String))
    (h : |fp - k| < 1/50) : scanCF ((k, f) :: rest) fp = some f := by
  simp only [scanCF]
  rw [if_pos ((qlt_cond fp k).mpr h)]

theorem str_append_assoc (a b c : String) : a ++ b ++ c = a ++ (b ++ c) := by
  rcases a with ⟨la⟩
  rcases b with ⟨lb⟩
  rcases c with ⟨lc⟩
  exact congrArg String.mk (List.append_assoc la lb lc)

theorem whole_format (q : ℚ) (hq : 0 ≤ q) (s : String) :
    (if pyIntPart q > 0 then intStr (pyIntPart q) ++ " " ++ s else s) =
    (if pyIntPart q = 0 then s else intStr (pyIntPart q) ++ " " ++ s) := by
  have hnn : 0 ≤ pyIntPart q := by
    rw [pyIntPart_eq_floor q hq]
    exact Int.floor_nonneg.mpr hq
  by_cases hz : pyIntPart q = 0
  · rw [if_neg (show ¬ pyIntPart q > 0 by omega), if_pos hz]
  · rw [if_pos (show pyIntPart q > 0 by omega), if_neg hz]

theorem mkRat_third_num_den (w : ℤ) :
    (mkRat (3 * w + 1) 3).num = 3 * w + 1 ∧ (mkRat (3 * w + 1) 3).den = 3 := by
  have hc : (3 * w + 1).natAbs.Coprime 3 := by
    rw [Nat.coprime_comm, Nat.prime_three.coprime_iff_not_dvd]
    omega
  have h : mkRat (3 * w + 1) 3 = Rat.mk' (3 * w + 1) 3 (by norm_num) hc :=
    Rat.mkRat_self (Rat.mk' (3 * w + 1) 3 (by norm_num) hc)
  rw [h]
  exact ⟨rfl, rfl⟩

/-- C6: for every nonnegative value q whose fractional part lies within the 0.02
tolerance of one of the tabulated cooking fractions 1/8, 1/4, 1/3, 3/8, 1/2,
5/8, 2/3, 3/4, 7/8, decimal_to_fraction renders exactly that tabulated fraction
string, prefixed by the whole-number part when it is nonzero (values in [0,1)
are the whole-part-zero instance); integral values render as the plain integer
string, and in particular decimal_to_fraction "4.0" = "4".  The thirds are
reached through the 0.333/0.666/0.667 dict keys, and the upper sliver of the
1/3 window through the Fraction(num).limit_denominator(8) fallback. -/
theorem decimal_to_fraction_tabulated :
    (∀ (q : ℚ) (p : ℚ × String), 0 ≤ q → p ∈ tabulatedFractions →
      qAbs (qSub (fracPart q) p.1) < mkRat 1 50 →
      decimal_to_fraction_val q =
        (if pyIntPart q = 0 then p.2 else intStr (pyIntPart q) ++ " " ++ p.2)) ∧
    (∀ q : ℚ, q.den = 1 → decimal_to_fraction_val q = intStr q.num) ∧
    decimal_to_fraction "4.0" = "4" := by
  refine ⟨?_, fun q hq => by rw [decimal_to_fraction_val, if_pos hq], by decide⟩
  intro q p hq hp hwin
  rw [fracPart_eq_fract q hq, qlt_cond] at hwin
  rw [tabulatedFractions_val] at hp
  have hp8 : 1/8 ≤ p.1 := by fin_cases hp <;> norm_num
  have hden1 : ¬ q.den = 1 := by
    intro hdeq
    have hqint : (q.num : ℚ) = q := (Rat.den_eq_one_iff q).mp hdeq
    rw [← hqint, Int.fract_intCast, zero_sub, abs_neg] at hwin
    have habs := le_abs_self p.1
    linarith
  rw [decimal_to_fraction_val, if_neg hden1]
  dsimp only
  rw [fracPart_eq_fract q hq]
  fin_cases hp
  · -- 1/8
    norm_num [abs_sub_lt_iff] at hwin
    obtain ⟨hw1, hw2⟩ := hwin
    have hsc : scanCF common_fractions (Int.fract q) = some "1/8" := by
      rw [common_fractions_val,
        scanCF_found (Int.fract q) ((1:ℚ)/8) "1/8" _
          (by rw [abs_sub_lt_iff]; exact ⟨by linarith, by linarith⟩)]
    rw [hsc]
    exact whole_format q hq _
  · -- 1/4
    norm_num [abs_sub_lt_iff] at hwin
    obtain ⟨hw1, hw2⟩ := hwin
    have hsc : scanCF common_fractions (Int.fract q) = some "1/4" := by
      rw [common_fractions_val,
        scanCF_skip (Int.fract q) ((1:ℚ)/8) "1/8" _
          (by rw [abs_sub_lt_iff]; rintro ⟨hc1, hc2⟩; linarith),
        scanCF_found (Int.fract q) ((1:ℚ)/4) "1/4" _
          (by rw [abs_sub_lt_iff]; exact ⟨by linarith, by linarith⟩)]
    rw [hsc]
    exact whole_format q hq _
  · -- 1/3: dict key 0.333 inside the window, limit_denominator on the sliver
    norm_num [abs_sub_lt_iff] at hwin
    obtain ⟨hw1, hw2⟩ := hwin
    by_cases hsl : Int.fract q < 353/1000
    · have hsc : scanCF common_fractions (Int.fract q) = some "1/3" := by
        rw [common_fractions_val,
          scanCF_skip (Int.fract q) ((1:ℚ)/8) "1/8" _
            (by rw [abs_sub_lt_iff]; rintro ⟨hc1, hc2⟩; linarith),
          scanCF_skip (Int.fract q) ((1:ℚ)/4) "1/4" _
            (by rw [abs_sub_lt_iff]; rintro ⟨hc1, hc2⟩; linarith),
          scanCF_found (Int.fract q) ((333:ℚ)/1000) "1/3" _
            (by rw [abs_sub_lt_iff]; exact ⟨by linarith, by linarith⟩)]
      rw [hsc]
      exact whole_format q hq _
    · push_neg at hsl
      have hscn : scanCF common_fractions (Int.fract q) = none := by
        rw [common_fractions_val,
          scanCF_skip (Int.fract q) ((1:ℚ)/8) "1/8" _
            (by rw [abs_sub_lt_iff]; rintro ⟨hc1, hc2⟩; linarith),
          scanCF_skip (Int.fract q) ((1:ℚ)/4) "1/4" _
            (by rw [abs_sub_lt_iff]; rintro ⟨hc1, hc2⟩; linarith),
          scanCF_skip (Int.fract q) ((333:ℚ)/1000) "1/3" _
            (by rw [abs_sub_lt_iff]; rintro ⟨hc1, hc2⟩; linarith),
          scanCF_skip (Int.fract q) ((3:ℚ)/8) "3/8" _
            (by rw [abs_sub_lt_iff]; rintro ⟨hc1, hc2⟩; linarith),
          scanCF_skip (Int.fract q) ((1:ℚ)/2) "1/2" _
            (by rw [abs_sub_lt_iff]; rintro ⟨hc1, hc2⟩; linarith),
          scanCF_skip (Int.fract q) ((5:ℚ)/8) "5/8" _
            (by rw [abs_sub_lt_iff]; rintro ⟨hc1, hc2⟩; linarith),
          scanCF_skip (Int.fract q) ((333:ℚ)/500) "2/3" _
            (by rw [abs_sub_lt_iff]; rintro ⟨hc1, hc2⟩; linarith),
          scanCF_skip (Int.fract q) ((667:ℚ)/1000) "2/3" _
            (by rw [abs_sub_lt_iff]; rintro ⟨hc1, hc2⟩; linarith),
          scanCF_skip (Int.fract q) ((3:ℚ)/4) "3/4" _
            (by rw [abs_sub_lt_iff]; rintro ⟨hc1, hc2⟩; linarith),
          scanCF_skip (Int.fract q) ((7:ℚ)/8) "7/8" _
            (by rw [abs_sub_lt_iff]; rintro ⟨hc1, hc2⟩; linarith)]
        simp only [scanCF]
      rw [hscn]
      dsimp only
      have hfd : Int.fract q = q - (⌊q⌋ : ℚ) := rfl
      have hlim := limitDen8_third_sliver ⌊q⌋ q (by linarith) (by linarith)
      rw [hlim]
      obtain ⟨hnum3, hden3⟩ := mkRat_third_num_den ⌊q⌋
      rw [hnum3, hden3]
      rw [pyIntPart_eq_floor q hq]
      simp only [Nat.cast_ofNat]
      rw [if_neg (show ¬ (3:ℕ) = 1 by norm_num)]
      by_cases hz : ⌊q⌋ = 0
      · rw [hz]
        decide
      · have hfl0 : 0 ≤ ⌊q⌋ := Int.floor_nonneg.mpr hq
        rw [if_pos (show 3 * ⌊q⌋ + 1 > (3:ℤ) by omega)]
        rw [Int.fdiv_eq_ediv _ (show (0:ℤ) ≤ 3 by norm_num),
          Int.fmod_eq_emod _ (show (0:ℤ) ≤ 3 by norm_num)]
        rw [(by omega : (3 * ⌊q⌋ + 1) / 3 = ⌊q⌋),
          (by omega : (3 * ⌊q⌋ + 1) % 3 = 1)]
        rw [if_neg (show ¬ (1:ℤ) = 0 by norm_num), if_neg hz]
        repeat rw [str_append_assoc]
        congr 1
  · -- 3/8
    norm_num [abs_sub_lt_iff] at hwin
    obtain ⟨hw1, hw2⟩ := hwin
    have hsc : scanCF common_fractions (Int.fract q) = some "3/8" := by
      rw [common_fractions_val,
        scanCF_skip (Int.fract q) ((1:ℚ)/8) "1/8" _
          (by rw [abs_sub_lt_iff]; rintro ⟨hc1, hc2⟩; linarith),
        scanCF_skip (Int.fract q) ((1:ℚ)/4) "1/4" _
          (by rw [abs_sub_lt_iff]; rintro ⟨hc1, hc2⟩; linarith),
        scanCF_skip (Int.fract q) ((333:ℚ)/1000) "1/3" _
          (by rw [abs_sub_lt_iff]; rintro ⟨hc1, hc2⟩; linarith),
        scanCF_found (Int.fract q) ((3:ℚ)/8) "3/8" _
          (by rw [abs_sub_lt_iff]; exact ⟨by linarith, by linarith⟩)]
    rw [hsc]
    exact whole_format q hq _
  · -- 1/2
    norm_num [abs_sub_lt_iff] at hwin
    obtain ⟨hw1, hw2⟩ := hwin
    have hsc : scanCF common_fractions (Int.fract q) = some "1/2" := by
      rw [common_fractions_val,
        scanCF_skip (Int.fract q) ((1:ℚ)/8) "1/8" _
          (by rw [abs_sub_lt_iff]; rintro ⟨hc1, hc2⟩; linarith),
        scanCF_skip (Int.fract q) ((1:ℚ)/4) "1/4" _
          (by rw [abs_sub_lt_iff]; rintro ⟨hc1, hc2⟩; linarith),
        scanCF_skip (Int.fract q) ((333:ℚ)/1000) "1/3" _
          (by rw [abs_sub_lt_iff]; rintro ⟨hc1, hc2⟩; linarith),
        scanCF_skip (Int.fract q) ((3:ℚ)/8) "3/8" _
          (by rw [abs_sub_lt_iff]; rintro ⟨hc1, hc2⟩; linarith),
        scanCF_found (Int.fract q) ((1:ℚ)/2) "1/2" _
          (by rw [abs_sub_lt_iff]; exact ⟨by linarith, by linarith⟩)]
    rw [hsc]
    exact whole_format q hq _
  · -- 5/8
    norm_num [abs_sub_lt_iff] at hwin
    obtain ⟨hw1, hw2⟩ := hwin
    have hsc : scanCF common_fractions (Int.fract q) = some "5/8" := by
      rw [common_fractions_val,
        scanCF_skip (Int.fract q) ((1:ℚ)/8) "1/8" _
          (by rw [abs_sub_lt_iff]; rintro ⟨hc1, hc2⟩; linarith),
        scanCF_skip (Int.fract q) ((1:ℚ)/4) "1/4" _
          (by rw [abs_sub_lt_iff]; rintro ⟨hc1, hc2⟩; linarith),
        scanCF_skip (Int.fract q) ((333:ℚ)/1000) "1/3" _
          (by rw [abs_sub_lt_iff]; rintro ⟨hc1, hc2⟩; linarith),
        scanCF_skip (Int.fract q) ((3:ℚ)/8) "3/8" _
          (by rw [abs_sub_lt_iff]; rintro ⟨hc1, hc2⟩; linarith),
        scanCF_skip (Int.fract q) ((1:ℚ)/2) "1/2" _
          (by rw [abs_sub_lt_iff]; rintro ⟨hc1, hc2⟩; linarith),
        scanCF_found (Int.fract q) ((5:ℚ)/8) "5/8" _
          (by rw [abs_sub_lt_iff]; exact ⟨by linarith, by linarith⟩)]
    rw [hsc]
    exact whole_format q hq _
  · -- 2/3: one of the two keys 0.666 / 0.667 catches every point of the window
    norm_num [abs_sub_lt_iff] at hwin
    obtain ⟨hw1, hw2⟩ := hwin
    have hsc : scanCF common_fractions (Int.fract q) = some "2/3" := by
      rw [common_fractions_val,
        scanCF_skip (Int.fract q) ((1:ℚ)/8) "1/8" _
          (by rw [abs_sub_lt_iff]; rintro ⟨hc1, hc2⟩; linarith),
        scanCF_skip (Int.fract q) ((1:ℚ)/4) "1/4" _
          (by rw [abs_sub_lt_iff]; rintro ⟨hc1, hc2⟩; linarith),
        scanCF_skip (Int.fract q) ((333:ℚ)/1000) "1/3" _
          (by rw [abs_sub_lt_iff]; rintro ⟨hc1, hc2⟩; linarith),
        scanCF_skip (Int.fract q) ((3:ℚ)/8) "3/8" _
          (by rw [abs_sub_lt_iff]; rintro ⟨hc1, hc2⟩; linarith),
        scanCF_skip (Int.fract q) ((1:ℚ)/2) "1/2" _
          (by rw [abs_sub_lt_iff]; rintro ⟨hc1, hc2⟩; linarith),
        scanCF_skip (Int.fract q) ((5:ℚ)/8) "5/8" _
          (by rw [abs_sub_lt_iff]; rintro ⟨hc1, hc2⟩; linarith)]
      by_cases hk : Int.fract q - (333:ℚ)/500 < 1/50 ∧ (333:ℚ)/500 - Int.fract q < 1/50
      · rw [scanCF_found (Int.fract q) ((333:ℚ)/500) "2/3" _
          (by rw [abs_sub_lt_iff]; exact hk)]
      · rw [not_and_or, not_lt, not_lt] at hk
        have hk2 : (1:ℚ)/50 ≤ Int.fract q - 333/500 := by
          rcases hk with hk | hk
          · exact hk
          · exfalso
            linarith
        rw [scanCF_skip (Int.fract q) ((333:ℚ)/500) "2/3" _
            (by rw [abs_sub_lt_iff]; rintro ⟨hc1, hc2⟩; linarith),
          scanCF_found (Int.fract q) ((667:ℚ)/1000) "2/3" _
            (by rw [abs_sub_lt_iff]; exact ⟨by linarith, by linarith⟩)]
    rw [hsc]
    exact whole_format q hq _
  · -- 3/4
    norm_num [abs_sub_lt_iff] at hwin
    obtain ⟨hw1, hw2⟩ := hwin
    have hsc : scanCF common_fractions (Int.fract q) = some "3/4" := by
      rw [common_fractions_val,
        scanCF_skip (Int.fract q) ((1:ℚ)/8) "1/8" _
          (by rw [abs_sub_lt_iff]; rintro ⟨hc1, hc2⟩; linarith),
        scanCF_skip (Int.fract q) ((1:ℚ)/4) "1/4" _
          (by rw [abs_sub_lt_iff]; rintro ⟨hc1, hc2⟩; linarith),
        scanCF_skip (Int.fract q) ((333:ℚ)/1000) "1/3" _
          (by rw [abs_sub_lt_iff]; rintro ⟨hc1, hc2⟩; linarith),
        scanCF_skip (Int.fract q) ((3:ℚ)/8) "3/8" _
          (by rw [abs_sub_lt_iff]; rintro ⟨hc1, hc2⟩; linarith),
        scanCF_skip (Int.fract q) ((1:ℚ)/2) "1/2" _
          (by rw [abs_sub_lt_iff]; rintro ⟨hc1, hc2⟩; linarith),
        scanCF_skip (Int.fract q) ((5:ℚ)/8) "5/8" _
          (by rw [abs_sub_lt_iff]; rintro ⟨hc1, hc2⟩; linarith),
        scanCF_skip (Int.fract q) ((333:ℚ)/500) "2/3" _
          (by rw [abs_sub_lt_iff]; rintro ⟨hc1, hc2⟩; linarith),
        scanCF_skip (Int.fract q) ((667:ℚ)/1000) "2/3" _
          (by rw [abs_sub_lt_iff]; rintro ⟨hc1, hc2⟩; linarith),
        scanCF_found (Int.fract q) ((3:ℚ)/4) "3/4" _
          (by rw [abs_sub_lt_iff]; exact ⟨by linarith, by linarith⟩)]
    rw [hsc]
    exact whole_format q hq _
  · -- 7/8
    norm_num [abs_sub_lt_iff] at hwin
    obtain ⟨hw1, hw2⟩ := hwin
    have hsc : scanCF common_fractions (Int.fract q) = some "7/8" := by
      rw [common_fractions_val,
        scanCF_skip (Int.fract q) ((1:ℚ)/8) "1/8" _
          (by rw [abs_sub_lt_iff]; rintro ⟨hc1, hc2⟩; linarith),
        scanCF_skip (Int.fract q) ((1:ℚ)/4) "1/4" _
          (by rw [abs_sub_lt_iff]; rintro ⟨hc1, hc2⟩; linarith),
        scanCF_skip (Int.fract q) ((333:ℚ)/1000) "1/3" _
          (by rw [abs_sub_lt_iff]; rintro ⟨hc1, hc2⟩; linarith),
        scanCF_skip (Int.fract q) ((3:ℚ)/8) "3/8" _
          (by rw [abs_sub_lt_iff]; rintro ⟨hc1, hc2⟩; linarith),
        scanCF_skip (Int.fract q) ((1:ℚ)/2) "1/2" _
          (by rw [abs_sub_lt_iff]; rintro ⟨hc1, hc2⟩; linarith),
        scanCF_skip (Int.fract q) ((5:ℚ)/8) "5/8" _
          (by rw [abs_sub_lt_iff]; rintro ⟨hc1, hc2⟩; linarith),
        scanCF_skip (Int.fract q) ((333:ℚ)/500) "2/3" _
          (by rw [abs_sub_lt_iff]; rintro ⟨hc1, hc2⟩; linarith),
        scanCF_skip (Int.fract q) ((667:ℚ)/1000) "2/3" _
          (by rw [abs_sub_lt_iff]; rintro ⟨hc1, hc2⟩; linarith),
        scanCF_skip (Int.fract q) ((3:ℚ)/4) "3/4" _
          (by rw [abs_sub_lt_iff]; rintro ⟨hc1, hc2⟩; linarith),
        scanCF_found (Int.fract q) ((7:ℚ)/8) "7/8" _
          (by rw [abs_sub_lt_iff]; exact ⟨by linarith, by linarith⟩)]
    rw [hsc]
    exact whole_format q hq _

/-- Witness for C6: 0.35 is within 0.02 of 1/3, and decimal_to_fraction renders
it as "1/3". -/
theorem decimal_to_fraction_tabulated_witness :
    decimal_to_fraction_val (mkRat 7 20) = "1/3" := by
  have h := decimal_to_fraction_tabulated.1 (mkRat 7 20) (mkRat 1 3, "1/3")
    (by decide) (by decide) (by decide)
  rw [h]
  decide

end MyKitchen
